import Mathlib

/-!
# Verification of the memflow kernel-discovery and process-model code

Shallow embedding of the Rust sources of the `memflow` repository:

* `src/memflow-win32/src/kernel/lowstub/x86.rs` — the x86 DTB scanner
  (`check_page`, `find`);
* `src/flow-win32/src/win32/process.rs` — `Win32Process::try_from_kernel`,
  `Win32Process::try_with_eprocess`, `Win32Process::peb_list`;
* `src/flow-win32/src/win/process.rs` — the legacy `ProcessIterator`;
* `src/memflow-derive/src/lib.rs` — the generated connector `mf_create`.

Machine integers are modelled as `Nat` with explicit `% 2 ^ 32` where the code
truncates (`Address::as_u32`, wrapping `u32` addition).  Fallible operations
return `Option` (`none` models both `Err` returns and panics, as noted at each
definition).  Virtual-memory reads performed through the out-of-scope
`flow-core` crate are modelled as an oracle record `VirtMem`, and each read the
code performs is logged as a `ReadEvent` so that theorems can speak about which
reads happen and through which context.
-/

namespace Memflow

/-- Instruction-set architecture tag.

Modelled from the spec: the `flow_core::architecture::Architecture` enum is not
part of the provided sources; the spec lists the variants
`{X86, X86PAE, X64, AArch64}`. -/
inductive Architecture where
  | X86
  | X86PAE
  | X64
  | AArch64
  deriving DecidableEq, Repr

/-- Pointer width in bits of an architecture.

Modelled from the spec: `Architecture::bits` lives in the out-of-scope
`flow-core` crate; the spec describes X86 and X86-PAE as 32-bit modes and X64
and AArch64 as 64-bit modes. -/
def Architecture.bits : Architecture → Nat
  | .X86 => 32
  | .X86PAE => 32
  | .X64 => 64
  | .AArch64 => 64

/-- Error kinds used by the modelled functions (`Error::Initialization` from
`memflow-win32/src/error.rs`; plain string errors from `flow-win32`). -/
inductive Error where
  | Initialization (msg : String)
  | Other (msg : String)
  deriving DecidableEq, Repr

/-- `StartBlock` from `memflow-win32/src/kernel`: architecture, kernel hint
address and DTB, exactly the fields constructed in `x86.rs::find`. -/
structure StartBlock where
  arch : Architecture
  kernel_hint : Nat
  dtb : Nat
  deriving DecidableEq, Repr

/-! ## x86 DTB scanner (`memflow-win32/src/kernel/lowstub/x86.rs`) -/

/-- `byteorder::LittleEndian::read_u32(&mem[i..])`: the 4-byte little-endian
value at byte offset `i`.  Out-of-range bytes default to `0`; callers guard the
length themselves (`checkPage` returns `none` before reaching this read when
the slice is too short, mirroring the Rust panic). -/
def readLE32 (mem : List Nat) (i : Nat) : Nat :=
  mem.getD i 0 + mem.getD (i + 1) 0 * 256 + mem.getD (i + 2) 0 * 65536 +
    mem.getD (i + 3) 0 * 16777216

/-- The count computed by `check_page`:
`mem.iter().step_by(4).skip(0x200).filter(|&&x| x == 0x63 || x == 0xe3).count()`.
`step_by(4)` visits byte indices `4*i` for `4*i < mem.length`, i.e.
`i < (mem.length + 3) / 4`; `skip(0x200)` drops the first `0x200` of those. -/
def codeEntryCount (mem : List Nat) : Nat :=
  (((List.range ((mem.length + 3) / 4)).drop 0x200).filter
    (fun i => decide (mem.getD (4 * i) 0 = 0x63 ∨ mem.getD (4 * i) 0 = 0xe3))).length

/-- `check_page(base, mem)` from `x86.rs`.  `none` models a Rust panic:
`mem[0]` panics on an empty slice, and `&mem[0xc00..]` / `read_u32` panic when
`mem.length < 0xc04` — but those are only reached after `mem[0] == 0x67`.
`base.as_u32() + 0x3` is u32 arithmetic, hence the `% 2 ^ 32`. -/
def checkPage (base : Nat) (mem : List Nat) : Option Bool :=
  match mem.head? with
  | none => none
  | some b0 =>
    if b0 = 0x67 then
      if mem.length < 0xc04 then none
      else
        some (decide (readLE32 mem 0xc00 &&& 0xfffff003 = (base % 2 ^ 32 + 0x3) % 2 ^ 32) &&
          decide (16 < codeEntryCount mem))
    else some false

/-- `PageChunks::page_chunks(Address::from(0), page_size)` splits the window
into consecutive `0x1000`-byte chunks tagged with their base address.

Modelled from the spec: the `PageChunks` iterator lives in the out-of-scope
`memflow-core` crate; the spec says the scanner "iterates 4 KiB-aligned pages"
of the window, so with start address `0` the chunks are the successive
4096-byte slices (the final chunk being shorter when the window length is not
a multiple of 4 KiB).  Structural fuel (`mem.length` suffices) keeps the
definition kernel-reducible. -/
def pageChunksGo (base : Nat) (mem : List Nat) : Nat → List (Nat × List Nat)
  | 0 => []
  | fuel + 1 =>
    match mem with
    | [] => []
    | x :: xs =>
      (base, (x :: xs).take 0x1000) :: pageChunksGo (base + 0x1000) ((x :: xs).drop 0x1000) fuel

/-- The chunk list scanned by `find`. -/
def pageChunks4k (mem : List Nat) : List (Nat × List Nat) :=
  pageChunksGo 0 mem mem.length

/-- The loop of `find`: `Iterator::find` over the chunks with predicate
`check_page`.  `none` models a panic inside `check_page`; reaching the end of
the chunk list yields the `Error::Initialization` value from `x86.rs`. -/
def x86findGo : List (Nat × List Nat) → Option (Except Error StartBlock)
  | [] => some (.error (.Initialization "unable to find x86 dtb in lowstub < 16M"))
  | ac :: rest =>
    match checkPage ac.1 ac.2 with
    | none => none
    | some true => some (.ok { arch := .X86, kernel_hint := 0, dtb := ac.1 })
    | some false => x86findGo rest

/-- `find(mem)` from `x86.rs`. -/
def x86find (mem : List Nat) : Option (Except Error StartBlock) :=
  x86findGo (pageChunks4k mem)

/-- The DTB signature as the spec states it: byte 0 equals `0x67`, the 4-byte
little-endian entry at offset `0xC00` masked with `0xFFFF_F003` equals the
page's own base address plus `0x3`, and at least 17 of the 4-byte entries past
(entry) offset `0x200` have their low byte equal to `0x63` or `0xE3`.  This
definition follows the specification's words and is compared against
`checkPage` (which follows the code). -/
def specEntryCount (page : List Nat) : Nat :=
  ((List.range (page.length / 4)).filter
    (fun i => decide (0x200 ≤ i) &&
      decide (page.getD (4 * i) 0 = 0x63 ∨ page.getD (4 * i) 0 = 0xe3))).length

/-- See `specEntryCount`; the full spec-side signature predicate. -/
def x86DtbSignature (base : Nat) (page : List Nat) : Bool :=
  decide (page.getD 0 0 = 0x67) &&
  decide (readLE32 page 0xc00 &&& 0xfffff003 = base + 0x3) &&
  decide (17 ≤ specEntryCount page)

/-! ### Scanner lemmas -/

lemma pageChunksGo_nil (b : Nat) : ∀ fuel, pageChunksGo b [] fuel = [] := by
  intro fuel
  cases fuel <;> rfl

/-- A non-empty window of at most one page is a single chunk. -/
lemma pageChunks4k_small (mem : List Nat) (h : mem.length ≤ 0x1000) (hne : mem ≠ []) :
    pageChunks4k mem = [(0, mem)] := by
  obtain ⟨x, xs, rfl⟩ := List.exists_cons_of_ne_nil hne
  show pageChunksGo 0 (x :: xs) (xs.length + 1) = _
  rw [pageChunksGo]
  rw [List.take_of_length_le h, List.drop_of_length_le h, pageChunksGo_nil]

set_option maxRecDepth 40000 in
lemma codeEntryCount_eq_spec (page : List Nat) (h : page.length = 4096) :
    codeEntryCount page = specEntryCount page := by
  unfold codeEntryCount specEntryCount
  rw [h]
  norm_num
  rw [show (List.range 1024).drop 512 =
      (List.range 1024).filter (fun i => decide (512 ≤ i)) from by decide]
  rw [List.filter_filter]
  congr 1
  exact List.filter_congr fun a _ => Bool.and_comm _ _

lemma checkPage_full (base : Nat) (page : List Nat) (hlen : page.length = 4096)
    (hbase : base + 0x3 < 2 ^ 32) :
    checkPage base page = some (x86DtbSignature base page) := by
  have hne : page ≠ [] := by
    intro e; rw [e] at hlen; simp at hlen
  obtain ⟨b0, rest, rfl⟩ := List.exists_cons_of_ne_nil hne
  unfold checkPage x86DtbSignature
  simp only [List.head?_cons, List.getD_cons_zero]
  by_cases hb : b0 = 0x67
  · subst hb
    rw [if_pos rfl, if_neg (by omega)]
    rw [Nat.mod_eq_of_lt (show base < 2 ^ 32 by omega), Nat.mod_eq_of_lt hbase]
    rw [codeEntryCount_eq_spec _ hlen]
    rw [show decide ((0x67 : Nat) = 0x67) = true from by decide, Bool.true_and]
    congr 1
  · rw [if_neg hb]
    simp [hb]

lemma pageChunksGo_mem (fuel : Nat) : ∀ (b : Nat) (mem : List Nat), mem.length ≤ fuel →
    mem.length % 0x1000 = 0 → ∀ ac ∈ pageChunksGo b mem fuel,
    ac.2.length = 4096 ∧ ac.1 + 0x1000 ≤ b + mem.length := by
  induction fuel with
  | zero =>
    intro b mem hle _ ac hac
    simp [pageChunksGo] at hac
  | succ n ih =>
    intro b mem hle hmod ac hac
    match mem with
    | [] => simp [pageChunksGo] at hac
    | x :: xs =>
      have hlen0 : (x :: xs).length ≠ 0 := by simp
      have h4096 : 0x1000 ≤ (x :: xs).length := by omega
      rw [pageChunksGo] at hac
      rcases List.mem_cons.mp hac with hac | hac
      · subst hac
        refine ⟨?_, by simpa using h4096⟩
        rw [List.length_take]
        omega
      · have hdl : ((x :: xs).drop 0x1000).length = (x :: xs).length - 0x1000 :=
          List.length_drop ..
        have := ih (b + 0x1000) ((x :: xs).drop 0x1000)
          (by omega) (by omega) ac hac
        exact ⟨this.1, by omega⟩

lemma x86findGo_spec (chunks : List (Nat × List Nat))
    (h : ∀ ac ∈ chunks, checkPage ac.1 ac.2 = some (x86DtbSignature ac.1 ac.2)) :
    x86findGo chunks =
      some (match chunks.find? (fun ac => x86DtbSignature ac.1 ac.2) with
        | some ac => Except.ok { arch := .X86, kernel_hint := 0, dtb := ac.1 }
        | none => Except.error (.Initialization "unable to find x86 dtb in lowstub < 16M")) := by
  induction chunks with
  | nil => simp [x86findGo]
  | cons ac rest ih =>
    have hac := h ac (by simp)
    rw [x86findGo, hac]
    by_cases hsig : x86DtbSignature ac.1 ac.2 = true
    · rw [hsig, List.find?_cons_of_pos rest
        (show (fun ac => x86DtbSignature ac.1 ac.2) ac = true from hsig)]
    · rw [Bool.not_eq_true] at hsig
      rw [hsig, List.find?_cons_of_neg rest
        (show ¬(fun ac => x86DtbSignature ac.1 ac.2) ac = true from by simp [hsig])]
      exact ih (fun c hc => h c (List.mem_cons_of_mem _ hc))

lemma x86find_eq (mem : List Nat) (h1 : mem.length % 0x1000 = 0)
    (h2 : mem.length < 2 ^ 32) :
    x86find mem =
      some (match (pageChunks4k mem).find? (fun ac => x86DtbSignature ac.1 ac.2) with
        | some ac => Except.ok { arch := .X86, kernel_hint := 0, dtb := ac.1 }
        | none => Except.error (.Initialization "unable to find x86 dtb in lowstub < 16M")) := by
  apply x86findGo_spec
  intro ac hac
  have hm := pageChunksGo_mem mem.length 0 mem le_rfl h1 ac hac
  exact checkPage_full ac.1 ac.2 hm.1 (by omega)

/-- C1: For every 4 KiB-aligned page in the scanned low-memory window, the x86
kernel locator accepts the page as a DTB if and only if its byte 0 equals
`0x67`, the 4-byte little-endian entry at offset `0xC00` masked with
`0xFFFF_F003` equals the page's own base address plus `0x3`, and at least 17 of
the 4-byte entries past offset `0x200` have their low byte equal to `0x63` or
`0xE3`; `find` returns the first (lowest-address) accepted page as the DTB.
Stated as: on a window of whole 4 KiB pages, `find` returns exactly the first
chunk satisfying the spec-side signature predicate (or the initialization
error when none does). -/
theorem x86_find_first_signature (mem : List Nat) (h1 : mem.length % 0x1000 = 0)
    (h2 : mem.length < 2 ^ 32) :
    x86find mem =
      some (match (pageChunks4k mem).find? (fun ac => x86DtbSignature ac.1 ac.2) with
        | some ac => Except.ok { arch := .X86, kernel_hint := 0, dtb := ac.1 }
        | none => Except.error (.Initialization "unable to find x86 dtb in lowstub < 16M")) :=
  x86find_eq mem h1 h2

/-- Witness for C1: on the empty window the locator scans no page and reports
the initialization error. -/
theorem x86_find_first_signature_witness :
    x86find [] =
      some (.error (.Initialization "unable to find x86 dtb in lowstub < 16M")) :=
  (x86_find_first_signature [] (by decide) (by decide)).trans (by rfl)

/-- C6: The x86 kernel locator fails with an `Initialization` error if and only
if no 4 KiB-aligned page in the given low-memory window satisfies the DTB
signature; when some page satisfies it, `find` returns `Ok` with a `StartBlock`
whose architecture is X86 and whose DTB is that page's address. -/
theorem x86_find_not_found_iff (mem : List Nat) (h1 : mem.length % 0x1000 = 0)
    (h2 : mem.length < 2 ^ 32) :
    (x86find mem =
        some (.error (.Initialization "unable to find x86 dtb in lowstub < 16M")) ↔
      ∀ ac ∈ pageChunks4k mem, x86DtbSignature ac.1 ac.2 = false) ∧
    ((∃ ac ∈ pageChunks4k mem, x86DtbSignature ac.1 ac.2 = true) →
      ∃ ac ∈ pageChunks4k mem, x86DtbSignature ac.1 ac.2 = true ∧
        x86find mem = some (.ok { arch := .X86, kernel_hint := 0, dtb := ac.1 })) := by
  have heq := x86find_eq mem h1 h2
  rcases hf : (pageChunks4k mem).find? (fun ac => x86DtbSignature ac.1 ac.2) with _ | ac
  · rw [hf] at heq
    have herr : x86find mem =
        some (.error (.Initialization "unable to find x86 dtb in lowstub < 16M")) :=
      heq.trans (by rfl)
    have hall : ∀ c ∈ pageChunks4k mem, x86DtbSignature c.1 c.2 = false := by
      intro c hc
      simpa using List.find?_eq_none.mp hf c hc
    refine ⟨⟨fun _ => hall, fun _ => herr⟩, ?_⟩
    rintro ⟨c, hc, hs⟩
    exact absurd hs (by simp [hall c hc])
  · rw [hf] at heq
    have hok : x86find mem =
        some (.ok { arch := .X86, kernel_hint := 0, dtb := ac.1 }) :=
      heq.trans (by rfl)
    have hmem : ac ∈ pageChunks4k mem := List.mem_of_find?_eq_some hf
    have hsig : x86DtbSignature ac.1 ac.2 = true := by
      simpa using List.find?_some hf
    refine ⟨⟨?_, ?_⟩, ?_⟩
    · intro h
      rw [hok] at h
      exact absurd h (by simp)
    · intro hall
      exact absurd hsig (by simp [hall ac hmem])
    · intro _
      exact ⟨ac, hmem, hsig, hok⟩

/-- Witness for C6: a window of one all-zero page satisfies no signature and
yields the initialization error. -/
theorem x86_find_not_found_iff_witness :
    x86find (List.replicate 4096 0) =
      some (.error (.Initialization "unable to find x86 dtb in lowstub < 16M")) := by
  refine (x86_find_not_found_iff (List.replicate 4096 0) (by norm_num)
    (by norm_num)).1.mpr ?_
  rw [pageChunks4k_small _ (by norm_num)
    (List.ne_nil_of_length_pos (by rw [List.length_replicate]; norm_num))]
  intro ac hac
  rw [List.mem_singleton.mp hac]
  rfl

/-! ### Partiality of `check_page` on short chunks (C10) -/

lemma checkPage_isSome (base : Nat) (mem : List Nat) (h : 0xc04 ≤ mem.length) :
    ∃ b, checkPage base mem = some b := by
  match mem with
  | [] => simp at h
  | x :: xs =>
    rw [checkPage]
    simp only [List.head?_cons]
    by_cases hx : x = 0x67
    · rw [if_pos hx, if_neg (by omega)]
      exact ⟨_, rfl⟩
    · rw [if_neg hx]
      exact ⟨false, rfl⟩

lemma x86findGo_total (chunks : List (Nat × List Nat))
    (h : ∀ ac ∈ chunks, ∃ b, checkPage ac.1 ac.2 = some b) :
    ∃ r, x86findGo chunks = some r := by
  induction chunks with
  | nil => exact ⟨_, rfl⟩
  | cons ac rest ih =>
    obtain ⟨b, hb⟩ := h ac (by simp)
    rw [x86findGo, hb]
    match b with
    | true => exact ⟨_, rfl⟩
    | false => exact ih fun c hc => h c (List.mem_cons_of_mem _ hc)

/-- C10 counterexample: the claim asserts that `check_page` indexes out of
bounds on *any* chunk shorter than `0xC04` bytes; but on the 1-byte chunk
`[0x00]` it stays in bounds and returns `false`, because the byte-0 test fails
before the out-of-bounds offset `0xC00` is ever touched. -/
theorem check_page_short_chunk_cex :
    ([0x00] : List Nat).length < 0xc04 ∧ checkPage 0 [0x00] = some false := by
  decide

/-- C10 (amended): `check_page` is total on chunks of at least `0xC04` bytes;
on a shorter chunk it indexes out of bounds exactly when the chunk is empty or
its byte 0 equals `0x67` (the out-of-bounds access at offset `0xC00` is only
reached after the byte-0 test passes), while a non-empty shorter chunk whose
byte 0 differs from `0x67` returns `false`; consequently `find` returns a
result whenever every chunk of the scanned window spans at least `0xC04`
bytes. -/
theorem check_page_bounds :
    (∀ (base : Nat) (mem : List Nat),
      (0xc04 ≤ mem.length → ∃ b, checkPage base mem = some b) ∧
      (mem = [] → checkPage base mem = none) ∧
      (mem.length < 0xc04 → mem.head? = some 0x67 → checkPage base mem = none) ∧
      (∀ b0, mem.head? = some b0 → b0 ≠ 0x67 → checkPage base mem = some false)) ∧
    (∀ mem : List Nat, (∀ ac ∈ pageChunks4k mem, 0xc04 ≤ ac.2.length) →
      ∃ r, x86find mem = some r) := by
  constructor
  · intro base mem
    refine ⟨checkPage_isSome base mem, ?_, ?_, ?_⟩
    · intro h
      subst h
      rfl
    · intro hlen hhd
      match mem with
      | [] => simp at hhd
      | x :: xs =>
        rw [List.head?_cons, Option.some.injEq] at hhd
        rw [checkPage]
        simp only [List.head?_cons]
        rw [if_pos hhd, if_pos hlen]
    · intro b0 hhd hb0
      match mem with
      | [] => simp at hhd
      | x :: xs =>
        rw [List.head?_cons, Option.some.injEq] at hhd
        rw [checkPage]
        simp only [List.head?_cons]
        rw [if_neg (hhd ▸ hb0)]
  · intro mem h
    exact x86findGo_total (pageChunks4k mem)
      fun ac hac => checkPage_isSome ac.1 ac.2 (h ac hac)

/-- Witness for C10 (amended): a concrete short chunk with byte 0 `0x12`
returns `false`, and `find` on the empty window (all of whose chunks trivially
span a full page) returns a result. -/
theorem check_page_bounds_witness :
    checkPage 0 [0x12] = some false ∧ ∃ r, x86find [] = some r :=
  ⟨(check_page_bounds.1 0 [0x12]).2.2.2 0x12 rfl (by decide),
   check_page_bounds.2 [] (by intro ac hac; simp [pageChunks4k, pageChunksGo] at hac)⟩

/-! ## Win32 process model (`flow-win32/src/win32/process.rs`)

The virtual-memory layer (`flow_core::mem::VirtualMemoryContext`) is out of
scope for the provided sources, so its reads are modelled as an oracle record
`VirtMem`.  Every read is parameterized by the translation architecture, the
*type* architecture (pointer width used to interpret the bytes), and the DTB of
the context it goes through — `VirtualMemoryContext::with(mem, arch, dtb)`
uses `arch` for both, `with_proc_arch(mem, sys, proc, dtb)` uses `sys` for
translation and `proc` as type architecture.  The embedding additionally logs
each performed read as a `ReadEvent`, in program order. -/

/-- One virtual read performed by the code, with the context it went through. -/
inductive ReadEvent where
  | i32 (transArch typeArch : Architecture) (dtb addr : Nat)
  | cstr (transArch typeArch : Architecture) (dtb addr maxLen : Nat)
  | addr (transArch typeArch : Architecture) (dtb a : Nat)
  | raw (transArch typeArch : Architecture) (dtb a len : Nat)
  deriving DecidableEq, Repr

/-- Oracle for the out-of-scope virtual-memory reads.  Each function takes the
translation architecture, the type architecture, the DTB and the address;
`none` models a failed (`Err`) read, which the code propagates with `?`. -/
structure VirtMem where
  readI32 : Architecture → Architecture → Nat → Nat → Option Int
  readCstr : Architecture → Architecture → Nat → Nat → Nat → Option String
  readAddr : Architecture → Architecture → Nat → Nat → Option Nat
  readRaw : Architecture → Architecture → Nat → Nat → Nat → Option (List Nat)

/-- `Win32Offsets` from `flow-win32/src/offsets`: the injected offset table
consumed by `try_with_eprocess`.  Lengths are byte counts (`Nat`). -/
structure Win32Offsets where
  eproc_pid : Nat
  eproc_name : Nat
  eproc_wow64 : Nat
  eproc_peb : Nat
  eproc_links : Nat
  kproc_dtb : Nat
  peb_ldr_x64 : Nat
  peb_ldr_x86 : Nat
  ldr_list_x64 : Nat
  ldr_list_x86 : Nat
  deriving DecidableEq, Repr

/-- The fields of `flow-win32`'s `Win32` struct used by the process
constructors: the discovered start block and the kernel image location. -/
structure Win32 where
  start_block : StartBlock
  kernel_base : Nat
  kernel_size : Nat
  deriving DecidableEq, Repr

/-- `Win32Process` from `flow-win32/src/win32/process.rs`, field for field.
Addresses are `Nat` with `0` as the null address. -/
structure Win32Process where
  address : Nat
  pid : Int
  name : String
  dtb : Nat
  wow64 : Nat
  peb : Nat
  peb_module : Nat
  sys_arch : Architecture
  proc_arch : Architecture
  deriving DecidableEq, Repr

/-- Result of resolving the `PsLoadedModuleList` export.

Modelled from the spec: PE parsing is done by the external `pelite` crate; the
spec only requires locating the kernel image "via a PE-header recognition" and
resolving the export address.  `none` models both a `from_bytes` failure and a
missing export; a forwarded export is a distinct error case in the code. -/
inductive PeExport where
  | symbol (off : Nat)
  | forward
  deriving DecidableEq, Repr

/-- `Win32Process::try_from_kernel`.  The PE lookup is the oracle `peExport`
applied to the bytes read from the kernel base.  `none` models any `Err`
return.  On success, also returns the reads performed, in order. -/
def tryFromKernel (m : VirtMem) (peExport : List Nat → Option PeExport)
    (win : Win32) : Option (Win32Process × List ReadEvent) :=
  match m.readRaw win.start_block.arch win.start_block.arch win.start_block.dtb
      win.kernel_base win.kernel_size with
  | none => none
  | some pe_buf =>
    match peExport pe_buf with
    | none => none
    | some .forward => none
    | some (.symbol s) =>
      match m.readAddr win.start_block.arch win.start_block.arch
          win.start_block.dtb (win.kernel_base + s) with
      | none => none
      | some peb_module =>
        some ({ address := win.kernel_base, pid := 0, name := "ntoskrnl.exe",
                dtb := win.start_block.dtb, wow64 := 0, peb := 0,
                peb_module := peb_module, sys_arch := win.start_block.arch,
                proc_arch := win.start_block.arch },
          [.raw win.start_block.arch win.start_block.arch win.start_block.dtb
            win.kernel_base win.kernel_size,
           .addr win.start_block.arch win.start_block.arch win.start_block.dtb
            (win.kernel_base + s)])

/-- `Win32Process::try_with_eprocess`.  Mirrors the Rust control flow: reads
pid, name and DTB through the system context; skips the WoW64 read when
`offsets.eproc_wow64` is zero; reads the PEB from `EPROCESS.Peb` for native
processes and from the WoW64 structure otherwise; selects the process
architecture from the system pointer width and the WoW64 pointer; and performs
the `Ldr` / `InLoadOrderModuleList` reads through a context built with the
process DTB and the process architecture as type architecture.  `none` models
any `Err` return; on success also returns the reads performed, in order. -/
def tryWithEprocess (m : VirtMem) (win : Win32) (o : Win32Offsets)
    (eprocess : Nat) : Option (Win32Process × List ReadEvent) :=
  match m.readI32 win.start_block.arch win.start_block.arch win.start_block.dtb
      (eprocess + o.eproc_pid) with
  | none => none
  | some pid =>
  match m.readCstr win.start_block.arch win.start_block.arch win.start_block.dtb
      (eprocess + o.eproc_name) 16 with
  | none => none
  | some name =>
  match m.readAddr win.start_block.arch win.start_block.arch win.start_block.dtb
      (eprocess + o.kproc_dtb) with
  | none => none
  | some dtb =>
  match (if o.eproc_wow64 = 0 then some ((0 : Nat), ([] : List ReadEvent))
    else
      match m.readAddr win.start_block.arch win.start_block.arch
          win.start_block.dtb (eprocess + o.eproc_wow64) with
      | none => none
      | some w =>
        some (w, [.addr win.start_block.arch win.start_block.arch
          win.start_block.dtb (eprocess + o.eproc_wow64)])) with
  | none => none
  | some (wow64, wowEvents) =>
  match m.readAddr win.start_block.arch win.start_block.arch win.start_block.dtb
      (if wow64 = 0 then eprocess + o.eproc_peb else wow64) with
  | none => none
  | some peb =>
  match (if win.start_block.arch.bits = 64 then
      some (if wow64 = 0 then Architecture.X64 else Architecture.X86)
    else if win.start_block.arch.bits = 32 then some Architecture.X86
    else none) with
  | none => none
  | some proc_arch =>
  match (if proc_arch.bits = 64 then some (o.peb_ldr_x64, o.ldr_list_x64)
    else if proc_arch.bits = 32 then some (o.peb_ldr_x86, o.ldr_list_x86)
    else none) with
  | none => none
  | some (peb_ldr_offs, ldr_list_offs) =>
  match m.readAddr win.start_block.arch proc_arch dtb (peb + peb_ldr_offs) with
  | none => none
  | some peb_ldr =>
  match m.readAddr win.start_block.arch proc_arch dtb (peb_ldr + ldr_list_offs) with
  | none => none
  | some peb_module =>
    some ({ address := eprocess, pid := pid, name := name, dtb := dtb,
            wow64 := wow64, peb := peb, peb_module := peb_module,
            sys_arch := win.start_block.arch, proc_arch := proc_arch },
      [ReadEvent.i32 win.start_block.arch win.start_block.arch
          win.start_block.dtb (eprocess + o.eproc_pid),
       ReadEvent.cstr win.start_block.arch win.start_block.arch
          win.start_block.dtb (eprocess + o.eproc_name) 16,
       ReadEvent.addr win.start_block.arch win.start_block.arch
          win.start_block.dtb (eprocess + o.kproc_dtb)] ++ wowEvents ++
      [ReadEvent.addr win.start_block.arch win.start_block.arch
          win.start_block.dtb (if wow64 = 0 then eprocess + o.eproc_peb else wow64),
       ReadEvent.addr win.start_block.arch proc_arch dtb (peb + peb_ldr_offs),
       ReadEvent.addr win.start_block.arch proc_arch dtb (peb_ldr + ldr_list_offs)])

/-- Inversion principle for `tryWithEprocess`: a successful construction
determines every intermediate read, the architecture selection, the offset
selection, the resulting record, and the exact read trace. -/
lemma tryWithEprocess_inv (m : VirtMem) (win : Win32) (o : Win32Offsets)
    (e : Nat) (p : Win32Process) (tr : List ReadEvent)
    (h : tryWithEprocess m win o e = some (p, tr)) :
    ∃ pid name dtb wow64 wowEvents peb proc_arch ldrOffs listOffs peb_ldr peb_module,
      m.readI32 win.start_block.arch win.start_block.arch win.start_block.dtb
        (e + o.eproc_pid) = some pid ∧
      m.readCstr win.start_block.arch win.start_block.arch win.start_block.dtb
        (e + o.eproc_name) 16 = some name ∧
      m.readAddr win.start_block.arch win.start_block.arch win.start_block.dtb
        (e + o.kproc_dtb) = some dtb ∧
      ((o.eproc_wow64 = 0 ∧ wow64 = 0 ∧ wowEvents = ([] : List ReadEvent)) ∨
        (¬o.eproc_wow64 = 0 ∧
          m.readAddr win.start_block.arch win.start_block.arch win.start_block.dtb
            (e + o.eproc_wow64) = some wow64 ∧
          wowEvents = [ReadEvent.addr win.start_block.arch win.start_block.arch
            win.start_block.dtb (e + o.eproc_wow64)])) ∧
      m.readAddr win.start_block.arch win.start_block.arch win.start_block.dtb
        (if wow64 = 0 then e + o.eproc_peb else wow64) = some peb ∧
      ((win.start_block.arch.bits = 64 ∧
          proc_arch = (if wow64 = 0 then Architecture.X64 else Architecture.X86)) ∨
        (win.start_block.arch.bits = 32 ∧ proc_arch = Architecture.X86)) ∧
      ((proc_arch.bits = 64 ∧ ldrOffs = o.peb_ldr_x64 ∧ listOffs = o.ldr_list_x64) ∨
        (proc_arch.bits = 32 ∧ ldrOffs = o.peb_ldr_x86 ∧ listOffs = o.ldr_list_x86)) ∧
      m.readAddr win.start_block.arch proc_arch dtb (peb + ldrOffs) = some peb_ldr ∧
      m.readAddr win.start_block.arch proc_arch dtb (peb_ldr + listOffs) = some peb_module ∧
      p = { address := e, pid := pid, name := name, dtb := dtb, wow64 := wow64,
            peb := peb, peb_module := peb_module,
            sys_arch := win.start_block.arch, proc_arch := proc_arch } ∧
      tr = [ReadEvent.i32 win.start_block.arch win.start_block.arch
              win.start_block.dtb (e + o.eproc_pid),
            ReadEvent.cstr win.start_block.arch win.start_block.arch
              win.start_block.dtb (e + o.eproc_name) 16,
            ReadEvent.addr win.start_block.arch win.start_block.arch
              win.start_block.dtb (e + o.kproc_dtb)] ++ wowEvents ++
           [ReadEvent.addr win.start_block.arch win.start_block.arch
              win.start_block.dtb (if wow64 = 0 then e + o.eproc_peb else wow64),
            ReadEvent.addr win.start_block.arch proc_arch dtb (peb + ldrOffs),
            ReadEvent.addr win.start_block.arch proc_arch dtb (peb_ldr + listOffs)] := by
  unfold tryWithEprocess at h
  cases h1 : m.readI32 win.start_block.arch win.start_block.arch win.start_block.dtb
      (e + o.eproc_pid) with
  | none => simp only [h1] at h; exact Option.noConfusion h
  | some pid =>
  simp only [h1] at h
  cases h2 : m.readCstr win.start_block.arch win.start_block.arch win.start_block.dtb
      (e + o.eproc_name) 16 with
  | none => simp only [h2] at h; exact Option.noConfusion h
  | some name =>
  simp only [h2] at h
  cases h3 : m.readAddr win.start_block.arch win.start_block.arch win.start_block.dtb
      (e + o.kproc_dtb) with
  | none => simp only [h3] at h; exact Option.noConfusion h
  | some dtb =>
  simp only [h3] at h
  split at h
  case _ => exact Option.noConfusion h
  case _ x wow64 wowEvents hwow =>
  cases h5 : m.readAddr win.start_block.arch win.start_block.arch win.start_block.dtb
      (if wow64 = 0 then e + o.eproc_peb else wow64) with
  | none => simp only [h5] at h; exact Option.noConfusion h
  | some peb =>
  simp only [h5] at h
  split at h
  case _ => exact Option.noConfusion h
  case _ x2 proc_arch harch =>
  split at h
  case _ => exact Option.noConfusion h
  case _ x3 ldrOffs listOffs hoffs =>
  cases h8 : m.readAddr win.start_block.arch proc_arch dtb (peb + ldrOffs) with
  | none => simp only [h8] at h; exact Option.noConfusion h
  | some peb_ldr =>
  simp only [h8] at h
  cases h9 : m.readAddr win.start_block.arch proc_arch dtb (peb_ldr + listOffs) with
  | none => simp only [h9] at h; exact Option.noConfusion h
  | some peb_module =>
  simp only [h9] at h
  injection h with h'
  injection h' with hp htr
  refine ⟨pid, name, dtb, wow64, wowEvents, peb, proc_arch, ldrOffs, listOffs,
    peb_ldr, peb_module, rfl, rfl, rfl, ?_, h5, ?_, ?_, h8, h9, hp.symm, htr.symm⟩
  · by_cases hw : o.eproc_wow64 = 0
    · rw [if_pos hw] at hwow
      injection hwow with hwow'
      injection hwow' with hw1 hw2
      exact Or.inl ⟨hw, hw1.symm, hw2.symm⟩
    · rw [if_neg hw] at hwow
      cases h4 : m.readAddr win.start_block.arch win.start_block.arch win.start_block.dtb
          (e + o.eproc_wow64) with
      | none => rw [h4] at hwow; exact Option.noConfusion hwow
      | some w =>
        rw [h4] at hwow
        simp only [] at hwow
        injection hwow with hwow'
        injection hwow' with hw1 hw2
        refine Or.inr ⟨hw, ?_, hw2.symm⟩
        exact congrArg _ hw1
  · by_cases h64 : win.start_block.arch.bits = 64
    · rw [if_pos h64] at harch
      injection harch with harch'
      exact Or.inl ⟨h64, harch'.symm⟩
    · rw [if_neg h64] at harch
      by_cases h32 : win.start_block.arch.bits = 32
      · rw [if_pos h32] at harch
        injection harch with harch'
        exact Or.inr ⟨h32, harch'.symm⟩
      · rw [if_neg h32] at harch
        exact Option.noConfusion harch
  · by_cases h64 : proc_arch.bits = 64
    · rw [if_pos h64] at hoffs
      injection hoffs with hoffs'
      injection hoffs' with ho1 ho2
      exact Or.inl ⟨h64, ho1.symm, ho2.symm⟩
    · rw [if_neg h64] at hoffs
      by_cases h32 : proc_arch.bits = 32
      · rw [if_pos h32] at hoffs
        injection hoffs with hoffs'
        injection hoffs' with ho1 ho2
        exact Or.inr ⟨h32, ho1.symm, ho2.symm⟩
      · rw [if_neg h32] at hoffs
        exact Option.noConfusion hoffs


/-- The loop of `Win32Process::peb_list`, with structural fuel: the Rust
`loop` pushes the current entry, reads the next pointer through the
process-context reader, and breaks when the value read is null or equals
`peb_module`.  `none` covers both a failed read (`Err` return) and exhausted
fuel (the Rust loop not having returned within `fuel` iterations); `some l`
is exactly `Ok(l)`. -/
def pebListLoop (read : Nat → Option Nat) (pm : Nat) : Nat → Nat → Option (List Nat)
  | 0, _ => none
  | fuel + 1, entry =>
    match read entry with
    | none => none
    | some r =>
      if r = 0 ∨ r = pm then some [entry]
      else (pebListLoop read pm fuel r).map (entry :: ·)

/-- `Win32Process::peb_list` for a process whose stored first module-list
entry is `pm`; `read` is `proc_reader.virt_read_addr` of the context built
from the process's sys arch, proc arch and DTB. -/
def pebList (read : Nat → Option Nat) (pm : Nat) (fuel : Nat) : Option (List Nat) :=
  pebListLoop read pm fuel pm

/-! ### Process-construction theorems -/

/-- C2: For every process constructed from an EPROCESS: if the system
architecture is 32-bit then the process architecture is X86; otherwise, if the
WoW64 pointer read for that process is null the process architecture is X64,
and if it is non-null the process architecture is X86. -/
theorem win32_process_arch_selection (m : VirtMem) (win : Win32) (o : Win32Offsets)
    (e : Nat) (p : Win32Process) (tr : List ReadEvent)
    (h : tryWithEprocess m win o e = some (p, tr)) :
    p.sys_arch = win.start_block.arch ∧
    (p.sys_arch.bits = 32 → p.proc_arch = Architecture.X86) ∧
    (p.sys_arch.bits ≠ 32 →
      (p.wow64 = 0 → p.proc_arch = Architecture.X64) ∧
      (p.wow64 ≠ 0 → p.proc_arch = Architecture.X86)) := by
  obtain ⟨pid, name, dtb, wow64, wowEvents, peb, proc_arch, ldrOffs, listOffs, peb_ldr,
    peb_module, h1, h2, h3, hwow, h5, harch, hoffs, h8, h9, hp, htr⟩ :=
    tryWithEprocess_inv m win o e p tr h
  have hsys : p.sys_arch = win.start_block.arch := by rw [hp]
  have hpa : p.proc_arch = proc_arch := by rw [hp]
  have hw64 : p.wow64 = wow64 := by rw [hp]
  refine ⟨hsys, ?_, ?_⟩
  · intro h32
    rw [hsys] at h32
    rcases harch with ⟨hb, _⟩ | ⟨_, hpa2⟩
    · exact absurd (h32.symm.trans hb) (by decide)
    · exact hpa.trans hpa2
  · intro hn32
    rw [hsys] at hn32
    rcases harch with ⟨_, hpa2⟩ | ⟨hb, _⟩
    · constructor
      · intro hw0
        have hz : wow64 = 0 := by rw [← hw64]; exact hw0
        rw [hpa, hpa2, if_pos hz]
      · intro hwn
        have hz : ¬wow64 = 0 := by rw [← hw64]; exact hwn
        rw [hpa, hpa2, if_neg hz]
    · exact absurd hb hn32

/-- C4: For every EPROCESS address, if the offsets record has `eproc_wow64`
equal to zero, then constructing the process performs no read at the WoW64
field (the full read trace is exactly the six listed reads), treats the WoW64
pointer as null, and (on a 64-bit system) therefore assigns the process
architecture X64 and reads the PEB from the `EPROCESS.Peb` field. -/
theorem win32_wow64_zero_offset (m : VirtMem) (win : Win32) (o : Win32Offsets)
    (e : Nat) (p : Win32Process) (tr : List ReadEvent)
    (h0 : o.eproc_wow64 = 0) (hsys : win.start_block.arch.bits = 64)
    (h : tryWithEprocess m win o e = some (p, tr)) :
    p.wow64 = 0 ∧ p.proc_arch = Architecture.X64 ∧
    m.readAddr win.start_block.arch win.start_block.arch win.start_block.dtb
      (e + o.eproc_peb) = some p.peb ∧
    ∃ peb_ldr,
      tr = [ReadEvent.i32 win.start_block.arch win.start_block.arch
              win.start_block.dtb (e + o.eproc_pid),
            ReadEvent.cstr win.start_block.arch win.start_block.arch
              win.start_block.dtb (e + o.eproc_name) 16,
            ReadEvent.addr win.start_block.arch win.start_block.arch
              win.start_block.dtb (e + o.kproc_dtb),
            ReadEvent.addr win.start_block.arch win.start_block.arch
              win.start_block.dtb (e + o.eproc_peb),
            ReadEvent.addr win.start_block.arch Architecture.X64 p.dtb
              (p.peb + o.peb_ldr_x64),
            ReadEvent.addr win.start_block.arch Architecture.X64 p.dtb
              (peb_ldr + o.ldr_list_x64)] := by
  obtain ⟨pid, name, dtb, wow64, wowEvents, peb, proc_arch, ldrOffs, listOffs, peb_ldr,
    peb_module, h1, h2, h3, hwow, h5, harch, hoffs, h8, h9, hp, htr⟩ :=
    tryWithEprocess_inv m win o e p tr h
  rcases hwow with ⟨_, hwz, hwE⟩ | ⟨hne, _, _⟩
  · subst hwz
    subst hwE
    rcases harch with ⟨_, hpa2⟩ | ⟨hb, _⟩
    · rw [if_pos rfl] at hpa2
      subst hpa2
      rcases hoffs with ⟨_, hl, hll⟩ | ⟨hb32, _, _⟩
      · subst hl
        subst hll
        subst hp
        refine ⟨rfl, rfl, ?_, peb_ldr, ?_⟩
        · rw [if_pos rfl] at h5
          exact h5
        · rw [htr]
          simp
      · exact absurd hb32 (by decide)
    · rw [hsys] at hb
      exact absurd hb (by decide)
  · exact absurd h0 hne

/-- C5: For every process, the first module-list entry is obtained by reading
the pointer at `peb + Ldr-offset` and then the pointer at the result +
`InLoadOrder`-offset, where both offsets are selected by the process (not
system) pointer width, and both reads use a virtual memory context
parameterized with that process's own DTB and its process architecture as the
type architecture (the trace records both reads with exactly that context). -/
theorem win32_peb_module_via_process_context (m : VirtMem) (win : Win32)
    (o : Win32Offsets) (e : Nat) (p : Win32Process) (tr : List ReadEvent)
    (h : tryWithEprocess m win o e = some (p, tr)) :
    (p.proc_arch = Architecture.X64 ∨ p.proc_arch = Architecture.X86) ∧
    ∃ ldrOffs listOffs peb_ldr,
      (p.proc_arch.bits = 64 → ldrOffs = o.peb_ldr_x64 ∧ listOffs = o.ldr_list_x64) ∧
      (p.proc_arch.bits = 32 → ldrOffs = o.peb_ldr_x86 ∧ listOffs = o.ldr_list_x86) ∧
      m.readAddr win.start_block.arch p.proc_arch p.dtb (p.peb + ldrOffs) =
        some peb_ldr ∧
      m.readAddr win.start_block.arch p.proc_arch p.dtb (peb_ldr + listOffs) =
        some p.peb_module ∧
      ReadEvent.addr win.start_block.arch p.proc_arch p.dtb (p.peb + ldrOffs) ∈ tr ∧
      ReadEvent.addr win.start_block.arch p.proc_arch p.dtb (peb_ldr + listOffs) ∈ tr := by
  obtain ⟨pid, name, dtb, wow64, wowEvents, peb, proc_arch, ldrOffs, listOffs, peb_ldr,
    peb_module, h1, h2, h3, hwow, h5, harch, hoffs, h8, h9, hp, htr⟩ :=
    tryWithEprocess_inv m win o e p tr h
  subst hp
  subst htr
  constructor
  · rcases harch with ⟨_, hpa2⟩ | ⟨_, hpa2⟩
    · by_cases hz : wow64 = 0
      · rw [hpa2, if_pos hz]
        exact Or.inl rfl
      · rw [hpa2, if_neg hz]
        exact Or.inr rfl
    · rw [hpa2]
      exact Or.inr rfl
  · refine ⟨ldrOffs, listOffs, peb_ldr, ?_, ?_, h8, h9, by simp, by simp⟩
    · intro hb
      rcases hoffs with ⟨_, hl, hll⟩ | ⟨hb32, _, _⟩
      · exact ⟨hl, hll⟩
      · exact absurd (hb.symm.trans hb32) (by decide)
    · intro hb
      rcases hoffs with ⟨hb64, _, _⟩ | ⟨_, hl, hll⟩
      · exact absurd (hb.symm.trans hb64) (by decide)
      · exact ⟨hl, hll⟩

/-! ### Concrete instances used as witnesses -/

/-- Oracle answering every read with a fixed value. -/
def sampleMem : VirtMem where
  readI32 := fun _ _ _ _ => some 7
  readCstr := fun _ _ _ _ _ => some "a"
  readAddr := fun _ _ _ _ => some 0
  readRaw := fun _ _ _ _ _ => some []

/-- A 64-bit system with DTB `0x1000`. -/
def sampleWin : Win32 where
  start_block := { arch := .X64, kernel_hint := 0, dtb := 0x1000 }
  kernel_base := 0x4000
  kernel_size := 0x200

/-- Offset table with a non-zero `eproc_wow64`. -/
def sampleOffsets : Win32Offsets where
  eproc_pid := 2
  eproc_name := 4
  eproc_wow64 := 6
  eproc_peb := 8
  eproc_links := 10
  kproc_dtb := 12
  peb_ldr_x64 := 14
  peb_ldr_x86 := 16
  ldr_list_x64 := 18
  ldr_list_x86 := 20

/-- Offset table of an OS version without WoW64 (`eproc_wow64 = 0`). -/
def sampleOffsetsNoWow : Win32Offsets where
  eproc_pid := 2
  eproc_name := 4
  eproc_wow64 := 0
  eproc_peb := 8
  eproc_links := 10
  kproc_dtb := 12
  peb_ldr_x64 := 14
  peb_ldr_x86 := 16
  ldr_list_x64 := 18
  ldr_list_x86 := 20

/-- The process `tryWithEprocess sampleMem sampleWin sampleOffsets 100` builds. -/
def sampleProc : Win32Process where
  address := 100
  pid := 7
  name := "a"
  dtb := 0
  wow64 := 0
  peb := 0
  peb_module := 0
  sys_arch := .X64
  proc_arch := .X64

/-- The trace of `tryWithEprocess sampleMem sampleWin sampleOffsets 100`. -/
def sampleTrace : List ReadEvent :=
  [.i32 .X64 .X64 0x1000 102, .cstr .X64 .X64 0x1000 104 16,
   .addr .X64 .X64 0x1000 112, .addr .X64 .X64 0x1000 106,
   .addr .X64 .X64 0x1000 108, .addr .X64 .X64 0 14, .addr .X64 .X64 0 18]

/-- The process `tryWithEprocess sampleMem sampleWin sampleOffsetsNoWow 200`
builds. -/
def sampleProcNoWow : Win32Process where
  address := 200
  pid := 7
  name := "a"
  dtb := 0
  wow64 := 0
  peb := 0
  peb_module := 0
  sys_arch := .X64
  proc_arch := .X64

/-- The trace of `tryWithEprocess sampleMem sampleWin sampleOffsetsNoWow 200`:
six reads, none at the WoW64 field. -/
def sampleTraceNoWow : List ReadEvent :=
  [.i32 .X64 .X64 0x1000 202, .cstr .X64 .X64 0x1000 204 16,
   .addr .X64 .X64 0x1000 212, .addr .X64 .X64 0x1000 208,
   .addr .X64 .X64 0 14, .addr .X64 .X64 0 18]

/-- Witness for C2: a 64-bit system process whose WoW64 pointer reads null is
assigned architecture X64. -/
theorem win32_process_arch_selection_witness :
    sampleProc.proc_arch = Architecture.X64 :=
  ((win32_process_arch_selection sampleMem sampleWin sampleOffsets 100 sampleProc
      sampleTrace (by rfl)).2.2 (by decide)).1 rfl

/-- Witness for C4: with `eproc_wow64 = 0` the constructed process has a null
WoW64 pointer and its PEB comes from the read at `EPROCESS.Peb`. -/
theorem win32_wow64_zero_offset_witness :
    sampleProcNoWow.wow64 = 0 ∧
    sampleMem.readAddr Architecture.X64 Architecture.X64 0x1000
      (200 + sampleOffsetsNoWow.eproc_peb) = some sampleProcNoWow.peb :=
  ⟨(win32_wow64_zero_offset sampleMem sampleWin sampleOffsetsNoWow 200
      sampleProcNoWow sampleTraceNoWow rfl rfl (by rfl)).1,
   (win32_wow64_zero_offset sampleMem sampleWin sampleOffsetsNoWow 200
      sampleProcNoWow sampleTraceNoWow rfl rfl (by rfl)).2.2.1⟩

/-- Witness for C5: the sample process architecture is X64 or X86. -/
theorem win32_peb_module_via_process_context_witness :
    sampleProc.proc_arch = Architecture.X64 ∨
    sampleProc.proc_arch = Architecture.X86 :=
  (win32_peb_module_via_process_context sampleMem sampleWin sampleOffsets 100
    sampleProc sampleTrace (by rfl)).1

/-- C9: Whenever `try_from_kernel` succeeds, the resulting pseudo-process has
pid 0, name "ntoskrnl.exe", address equal to the kernel base, DTB equal to the
start block's DTB, null WoW64 pointer, null PEB, and identical system and
process architectures (both the start block's architecture). -/
theorem try_from_kernel_fields (m : VirtMem) (pe : List Nat → Option PeExport)
    (win : Win32) (p : Win32Process) (tr : List ReadEvent)
    (h : tryFromKernel m pe win = some (p, tr)) :
    p.pid = 0 ∧ p.name = "ntoskrnl.exe" ∧ p.address = win.kernel_base ∧
    p.dtb = win.start_block.dtb ∧ p.wow64 = 0 ∧ p.peb = 0 ∧
    p.sys_arch = win.start_block.arch ∧ p.proc_arch = win.start_block.arch ∧
    p.sys_arch = p.proc_arch := by
  unfold tryFromKernel at h
  cases h1 : m.readRaw win.start_block.arch win.start_block.arch win.start_block.dtb
      win.kernel_base win.kernel_size with
  | none => simp only [h1] at h; exact Option.noConfusion h
  | some pe_buf =>
  simp only [h1] at h
  cases h2 : pe pe_buf with
  | none => simp only [h2] at h; exact Option.noConfusion h
  | some ex =>
  simp only [h2] at h
  cases ex with
  | forward => exact Option.noConfusion h
  | symbol s =>
  cases h3 : m.readAddr win.start_block.arch win.start_block.arch win.start_block.dtb
      (win.kernel_base + s) with
  | none => simp only [h3] at h; exact Option.noConfusion h
  | some peb_module =>
  simp only [h3] at h
  injection h with h'
  injection h' with hp htr
  subst hp
  exact ⟨rfl, rfl, rfl, rfl, rfl, rfl, rfl, rfl, rfl⟩

/-- PE-export oracle resolving `PsLoadedModuleList` at offset `0x20`. -/
def samplePe : List Nat → Option PeExport := fun _ => some (.symbol 0x20)

/-- The pseudo-process `tryFromKernel sampleMem samplePe sampleWin` builds. -/
def sampleKernelProc : Win32Process where
  address := 0x4000
  pid := 0
  name := "ntoskrnl.exe"
  dtb := 0x1000
  wow64 := 0
  peb := 0
  peb_module := 0
  sys_arch := .X64
  proc_arch := .X64

/-- The trace of `tryFromKernel sampleMem samplePe sampleWin`. -/
def sampleKernelTrace : List ReadEvent :=
  [.raw .X64 .X64 0x1000 0x4000 0x200, .addr .X64 .X64 0x1000 (0x4000 + 0x20)]

/-- Witness for C9: the concrete kernel pseudo-process has pid 0 and name
"ntoskrnl.exe". -/
theorem try_from_kernel_fields_witness :
    sampleKernelProc.pid = 0 ∧ sampleKernelProc.name = "ntoskrnl.exe" :=
  ⟨(try_from_kernel_fields sampleMem samplePe sampleWin sampleKernelProc
      sampleKernelTrace (by rfl)).1,
   (try_from_kernel_fields sampleMem samplePe sampleWin sampleKernelProc
      sampleKernelTrace (by rfl)).2.1⟩

/-! ## Legacy process iterator (`flow-win32/src/win/process.rs`)

`ProcessIterator::next` reads the next EPROCESS through
`ActiveProcessLinks.Blink`, normalizes it by subtracting the links offset and
nulls it when it equals the anchor (the first EPROCESS).  The read goes
through a `VirtualReader` and is `unwrap`ped, so the chain of successor
addresses is modelled as a total function `blink : Nat → Nat` (the value the
reader returns for each address).  Addresses use `0` as null; `linksOff` is
the resolved `_EPROCESS.ActiveProcessLinks` offset and `blinkOff` the
`_LIST_ENTRY.Blink` offset. -/

/-- The normalized next entry: `virt_read_addr(eprocess + links + blink)`,
minus the links offset when non-null (Nat subtraction, as the address
arithmetic never underflows in the code's use). -/
def procIterNorm (blink : Nat → Nat) (linksOff blinkOff cur : Nat) : Nat :=
  if blink (cur + linksOff + blinkOff) = 0 then blink (cur + linksOff + blinkOff)
  else blink (cur + linksOff + blinkOff) - linksOff

/-- The state update of `ProcessIterator::next`: a null state stays null (the
iterator yields `None` without touching it); otherwise the normalized next
entry, nulled when it equals the anchor `first`. -/
def procIterStep (blink : Nat → Nat) (linksOff blinkOff first cur : Nat) : Nat :=
  if cur = 0 then 0
  else if procIterNorm blink linksOff blinkOff cur = first then 0
  else procIterNorm blink linksOff blinkOff cur

/-- `ProcessIterator::next`: `none` when the stored EPROCESS is null,
otherwise yields the current EPROCESS and the updated state. -/
def procIterNext (blink : Nat → Nat) (linksOff blinkOff first cur : Nat) :
    Option (Nat × Nat) :=
  if cur = 0 then none
  else some (cur, procIterStep blink linksOff blinkOff first cur)

/-- The iterator state after `n` calls to `next`, starting from `start`
(the anchor `first` is `start` in `ProcessIterator::new`). -/
def procIterState (blink : Nat → Nat) (linksOff blinkOff first start : Nat) :
    Nat → Nat
  | 0 => start
  | n + 1 => procIterStep blink linksOff blinkOff first
      (procIterState blink linksOff blinkOff first start n)

/-- Termination of the process walker: some call to `next` yields nothing
(equivalently, the state eventually becomes null, after which every call
yields `none`). -/
def ProcIterTerminates (blink : Nat → Nat) (linksOff blinkOff first start : Nat) :
    Prop :=
  ∃ n, procIterState blink linksOff blinkOff first start n = 0

/-- A Blink chain that cycles between `0x2000` and `0x3000` without revisiting
the anchor `0x1000`. -/
def cycBlink : Nat → Nat := fun a =>
  if a = 0x1000 then 0x2000 else if a = 0x2000 then 0x3000
  else if a = 0x3000 then 0x2000 else 0

lemma cycBlink_state_mem (n : Nat) :
    procIterState cycBlink 0 0 0x1000 0x1000 n = 0x1000 ∨
    procIterState cycBlink 0 0 0x1000 0x1000 n = 0x2000 ∨
    procIterState cycBlink 0 0 0x1000 0x1000 n = 0x3000 := by
  induction n with
  | zero => exact Or.inl rfl
  | succ k ih =>
    rcases ih with hk | hk | hk <;>
      · rw [procIterState, hk]
        first
          | exact Or.inr (Or.inl (by decide))
          | exact Or.inr (Or.inr (by decide))

/-- C3 counterexample: the process walker does **not** terminate on every
Blink chain — on a chain whose normalized entries cycle without revisiting
the anchor (here `0x1000 → 0x2000 → 0x3000 → 0x2000 → …`), no call to `next`
ever yields nothing. -/
theorem proc_iter_nonterminating_cex :
    ¬ ProcIterTerminates cycBlink 0 0 0x1000 0x1000 := by
  rintro ⟨n, hn⟩
  rcases cycBlink_state_mem n with hk | hk | hk <;> rw [hn] at hk <;> simp at hk

/-- C3 (amended): iteration of the process enumerator ends whenever the
normalized next entry equals the anchor (first) EPROCESS or is null: the state
becomes null and the subsequent call to `next` yields nothing (it does not
terminate on arbitrary chains, only on those that return to the anchor or
reach null). -/
theorem proc_iter_anchor_or_null_ends (blink : Nat → Nat)
    (linksOff blinkOff first cur : Nat) (hc : cur ≠ 0)
    (h : procIterNorm blink linksOff blinkOff cur = first ∨
      procIterNorm blink linksOff blinkOff cur = 0) :
    procIterStep blink linksOff blinkOff first cur = 0 ∧
    procIterNext blink linksOff blinkOff first
      (procIterStep blink linksOff blinkOff first cur) = none := by
  have hstep : procIterStep blink linksOff blinkOff first cur = 0 := by
    rw [procIterStep, if_neg hc]
    rcases h with h | h
    · rw [if_pos h]
    · by_cases hf : procIterNorm blink linksOff blinkOff cur = first
      · rw [if_pos hf]
      · rw [if_neg hf]
        exact h
  refine ⟨hstep, ?_⟩
  rw [hstep, procIterNext, if_pos rfl]

/-- Witness for C3 (amended): with every Blink answered by the anchor `9`, one
step from EPROCESS `5` nulls the state and the next call yields nothing. -/
theorem proc_iter_anchor_or_null_ends_witness :
    procIterStep (fun _ => 9) 0 0 9 5 = 0 ∧
    procIterNext (fun _ => 9) 0 0 9 (procIterStep (fun _ => 9) 0 0 9 5) = none :=
  proc_iter_anchor_or_null_ends (fun _ => 9) 0 0 9 5 (by decide)
    (Or.inl (by decide))

/-! ## Connector plug-in `mf_create` (`memflow-derive/src/lib.rs`)

The `#[connector(...)]` attribute generates an `extern "C" fn mf_create` that
maps the log level, converts the C argument string to UTF-8, parses it with
`ConnectorArgs::parse`, and calls the user factory; any failure short-circuits
to `None` (a null handle, via the `Option<&mut c_void>` niche).  The UTF-8
conversion, the parser and the factory are abstracted: `argsstr` is the result
of `CStr::to_str().ok()`, `parse` models `ConnectorArgs::parse(..).ok()`, and
`factory` the user function's `.ok()` result; `some` models the non-null
boxed handle. -/

/-- `log::Level`, as mapped by the generated `mf_create`. -/
inductive LogLevel where
  | lvlError
  | lvlWarn
  | lvlInfo
  | lvlDebug
  | lvlTrace
  deriving DecidableEq, Repr

/-- The log-level mapping at the top of the generated `mf_create`:
`0 => Error, 1 => Warn, 2 => Info, 3 => Debug, 4 => Trace, _ => Trace`. -/
def levelFromI32 (l : Int) : LogLevel :=
  if l = 0 then .lvlError
  else if l = 1 then .lvlWarn
  else if l = 2 then .lvlInfo
  else if l = 3 then .lvlDebug
  else .lvlTrace

/-- The generated `mf_create` (the variant whose factory takes the log level):
UTF-8 conversion, then argument parsing, then the user factory; each `.ok()?`
short-circuits to a null handle. -/
def mfCreate {Args Conn : Type} (argsstr : Option String)
    (parse : String → Option Args) (factory : Args → LogLevel → Option Conn)
    (log_level : Int) : Option Conn :=
  match argsstr with
  | none => none
  | some s =>
    match parse s with
    | none => none
    | some conn_args => factory conn_args (levelFromI32 log_level)

/-- C7: `mf_create` returns a null handle iff the C string is not valid UTF-8,
or parsing it into a connector-args record fails, or the user factory returns
an error; otherwise it returns the (non-null) handle to the constructed
connector, and the factory is invoked on exactly the parsed args record (so
parsing happens before the factory runs). -/
theorem mf_create_null_iff {Args Conn : Type} (u : Option String)
    (parse : String → Option Args) (factory : Args → LogLevel → Option Conn)
    (l : Int) :
    (mfCreate u parse factory l = none ↔
      u = none ∨ (∃ s, u = some s ∧ parse s = none) ∨
      (∃ s a, u = some s ∧ parse s = some a ∧
        factory a (levelFromI32 l) = none)) ∧
    (∀ s a, u = some s → parse s = some a →
      mfCreate u parse factory l = factory a (levelFromI32 l)) := by
  constructor
  · cases u with
    | none => simp [mfCreate]
    | some s =>
      cases hp : parse s with
      | none => simp [mfCreate, hp]
      | some a =>
        cases hf : factory a (levelFromI32 l) with
        | none => simp [mfCreate, hp, hf]
        | some c => simp [mfCreate, hp, hf]
  · intro s a hu hp
    subst hu
    simp [mfCreate, hp]

/-- Parser oracle used by the C7 witness. -/
def sampleParse : String → Option Nat := fun _ => some 3

/-- Factory oracle used by the C7 witness. -/
def sampleFactory : Nat → LogLevel → Option Nat := fun a _ => some (a + 1)

/-- Witness for C7: with every stage succeeding, `mf_create` returns the
factory's handle. -/
theorem mf_create_null_iff_witness :
    mfCreate (some "k") sampleParse sampleFactory 0 = some 4 :=
  ((mf_create_null_iff (some "k") sampleParse sampleFactory 0).2 "k" 3 rfl
    rfl).trans rfl

/-! ## `peb_list` invariants (C8) -/

lemma pebListLoop_spec (read : Nat → Option Nat) (pm : Nat) :
    ∀ fuel entry l, pebListLoop read pm fuel entry = some l →
      l ≠ [] ∧ l.head? = some entry ∧
      List.Chain' (fun a b => read a = some b) l ∧
      (∀ x ∈ l.tail, x ≠ 0 ∧ x ≠ pm) ∧
      ∃ last r, l.getLast? = some last ∧ read last = some r ∧ (r = 0 ∨ r = pm) := by
  intro fuel
  induction fuel with
  | zero => intro entry l h; exact Option.noConfusion h
  | succ n ih =>
    intro entry l h
    rw [pebListLoop] at h
    cases hr : read entry with
    | none => simp only [hr] at h; exact Option.noConfusion h
    | some r =>
    simp only [hr] at h
    by_cases hbreak : r = 0 ∨ r = pm
    · rw [if_pos hbreak] at h
      injection h with h'
      subst h'
      refine ⟨by simp, rfl, List.chain'_singleton _, by simp, entry, r, rfl, hr, hbreak⟩
    · rw [if_neg hbreak] at h
      cases hl : pebListLoop read pm n r with
      | none => simp only [hl, Option.map] at h; exact Option.noConfusion h
      | some l2 =>
      simp only [hl, Option.map] at h
      injection h with h'
      subst h'
      obtain ⟨hne, hhead, hchain, htail, last, rr, hlast, hread, hrr⟩ := ih r l2 hl
      push_neg at hbreak
      refine ⟨by simp, rfl, ?_, ?_, last, rr, ?_, hread, hrr⟩
      · rw [List.chain'_cons']
        refine ⟨?_, hchain⟩
        intro b hb
        rw [hhead] at hb
        injection hb with hb
        rw [← hb]
        exact hr
      · intro x hx
        rw [List.tail_cons] at hx
        obtain ⟨y, t, rfl⟩ := List.exists_cons_of_ne_nil hne
        rw [List.head?_cons, Option.some.injEq] at hhead
        rcases List.mem_cons.mp hx with rfl | hx
        · rw [hhead]
          exact hbreak
        · exact htail x (by simpa using hx)
      · obtain ⟨y, t, rfl⟩ := List.exists_cons_of_ne_nil hne
        rw [List.getLast?_cons_cons]
        exact hlast

/-- C8: Whenever `peb_list` returns `Ok`, the returned vector is non-empty,
its first element equals the process's stored first module-list entry
(`peb_module`), every other element is the pointer read at the preceding
element, no element after the first is null or equal to `peb_module` (the
loop stops exactly when a read value is null or equals `peb_module`, as the
final read shows), and `peb_module` occurs exactly once in the result. -/
theorem peb_list_spec (read : Nat → Option Nat) (pm fuel : Nat) (l : List Nat)
    (h : pebList read pm fuel = some l) :
    l ≠ [] ∧ l.head? = some pm ∧
    List.Chain' (fun a b => read a = some b) l ∧
    (∀ x ∈ l.tail, x ≠ 0 ∧ x ≠ pm) ∧
    l.count pm = 1 ∧
    (∃ last r, l.getLast? = some last ∧ read last = some r ∧ (r = 0 ∨ r = pm)) := by
  obtain ⟨hne, hhead, hchain, htail, hlast⟩ := pebListLoop_spec read pm fuel pm l h
  refine ⟨hne, hhead, hchain, htail, ?_, hlast⟩
  obtain ⟨y, t, rfl⟩ := List.exists_cons_of_ne_nil hne
  rw [List.head?_cons, Option.some.injEq] at hhead
  rw [hhead, List.count_cons_self]
  have ht : t.count pm = 0 := by
    rw [List.count_eq_zero]
    intro hmem
    exact (htail pm (by simpa using hmem)).2 rfl
  rw [ht]

/-- Module-list read oracle for the C8 witness: `5 ↦ 7`, `7 ↦ 0` (null ends
the walk). -/
def sampleModuleRead : Nat → Option Nat := fun a =>
  some (if a = 5 then 7 else if a = 7 then 0 else 1)

/-- Witness for C8: walking from `peb_module = 5` returns `[5, 7]`, in which
`5` occurs exactly once. -/
theorem peb_list_spec_witness : ([5, 7] : List Nat).count 5 = 1 :=
  (peb_list_spec sampleModuleRead 5 10 [5, 7] (by rfl)).2.2.2.2.1

end Memflow
